import Mathlib

/-!
Shallow embedding of the technology-catalog resolution, metadata
normalization and cutout-fetch planning logic of the
`atlite-profiles-api` repository (`src/core/technology.py`,
`src/core/models.py`, `src/core/catalog.py`, `src/service/runner.py`,
`src/service/api/cutout_metadata.py`), together with theorems settling
the frozen claims about that logic.
-/

/-- Python values as they occur in parsed YAML payloads
(`dict[str, object]`).  Python floats are modelled as rationals. -/
inductive PyValue : Type where
  | none : PyValue
  | bool : Bool → PyValue
  | int : Int → PyValue
  | float : ℚ → PyValue
  | str : String → PyValue
  | list : List PyValue → PyValue
  | dict : List (String × PyValue) → PyValue

/-- A Python `dict[str, object]`, modelled as an association list with
first-match lookup (Python dicts have unique keys, so lookup order is
immaterial on faithful inputs). -/
abbrev Dict := List (String × PyValue)

/-- Lookup of a key in a dict: `d[k]` / `d.get(k)` when the key is present. -/
def dictGet? : Dict → String → Option PyValue
  | [], _ => Option.none
  | (k', v) :: rest, k => if k' = k then some v else dictGet? rest k

/-- Python `d.get(k)`: missing keys yield Python `None`. -/
def pyGet (d : Dict) (k : String) : PyValue :=
  (dictGet? d k).getD PyValue.none

/-- Python `k in d`. -/
def containsKey (d : Dict) (k : String) : Bool :=
  d.any (fun e => e.1 = k)

/-- Python `d.setdefault(k, v)` (as a pure operation on the dict): inserts
the binding at the end when the key is absent, otherwise leaves the dict
unchanged. -/
def dictSetdefault (d : Dict) (k : String) (v : PyValue) : Dict :=
  if containsKey d k then d else d ++ [(k, v)]

/-- Python `d[k] = v` (as a pure operation): replaces the value when the
key is present, otherwise appends the binding. -/
def dictSet (d : Dict) (k : String) (v : PyValue) : Dict :=
  if containsKey d k then
    d.map (fun e => if e.1 = k then (e.1, v) else e)
  else d ++ [(k, v)]

/-- Python truthiness (`bool(v)`), as used by `not value.get("name")`. -/
def pyTruthy : PyValue → Bool
  | .none => false
  | .bool b => b
  | .int n => n ≠ 0
  | .float q => q ≠ 0
  | .str s => s ≠ ""
  | .list xs => !xs.isEmpty
  | .dict d => !d.isEmpty

/-! ## `src/core/technology.py` -/

/-- `to_float` (src/core/technology.py): numeric coercion used throughout
the unit normalizer.  Python's `isinstance(value, (int, float))` also
accepts `bool` (a subclass of `int`), so booleans coerce to 0/1. -/
def to_float : PyValue → Option ℚ
  | .int n => some (n : ℚ)
  | .float q => some q
  | .bool b => some (if b then 1 else 0)
  | _ => Option.none

/-- The `values` list built inside `infer_power_scale`: the absolute value
of the rated-power field `P` when numeric, followed by the absolute values
of the numeric entries of the `POW` list. -/
def collected_magnitudes (payload : Dict) : List ℚ :=
  (match to_float (pyGet payload "P") with
    | some p => [|p|]
    | Option.none => []) ++
  (match pyGet payload "POW" with
    | .list items => items.filterMap (fun item => (to_float item).map (fun q => |q|))
    | _ => [])

/-- `infer_power_scale` (src/core/technology.py): returns 1 when the
collected magnitudes are empty or their maximum is at most 100, and
1/1000 when the maximum exceeds 100. -/
def infer_power_scale (payload : Dict) : ℚ :=
  match collected_magnitudes payload with
  | [] => 1
  | v :: vs => if 100 < vs.foldl max v then 1/1000 else 1

/-- One `{"speed": ..., "power_mw": ...}` entry produced by `to_curve_points`. -/
structure CurvePoint where
  speed : ℚ
  power_mw : ℚ
  deriving DecidableEq

/-- `to_curve_points` (src/core/technology.py): zips the `V` and `POW`
lists, skips pairs where either side fails numeric coercion, and applies
the single inferred power scale to every power value. -/
def to_curve_points (payload : Dict) : List CurvePoint :=
  match pyGet payload "V", pyGet payload "POW" with
  | .list speeds, .list powers =>
    let power_scale := infer_power_scale payload
    (speeds.zip powers).filterMap (fun sp =>
      match to_float sp.1, to_float sp.2 with
      | some speed_value, some power_value =>
        some ⟨speed_value, power_value * power_scale⟩
      | _, _ => Option.none)
  | _, _ => []

/-- The provenance component of a resolution result. -/
abbrev Provenance := String

/-- First-match lookup in a string-to-string association list (the
`atlite_files.get(technology)` call). -/
def dictGet?' : List (String × String) → String → Option String
  | [], _ => Option.none
  | (k', v) :: rest, k => if k' = k then some v else dictGet?' rest k

/-- `_resolve_technology_file` (src/core/technology.py).  The filesystem
is abstracted as the predicate `exists_` on path strings; the atlite
catalog fetcher is a value of `Except Unit (List (String × String))`
(name-to-path mapping, or the exception the Python call raised, which the
source swallows into an empty mapping).  Raising `ValueError` is modelled
as returning `.error` with the message. -/
def _resolve_technology_file (exists_ : String → Bool) (technology : String)
    (local_dir : String)
    (atlite_paths_fetcher : Except Unit (List (String × String)))
    (not_found_label : String) : Except String (Provenance × String) :=
  let local_file := local_dir ++ "/" ++ technology ++ ".yaml"
  if exists_ local_file then .ok ("custom", local_file)
  else
    let atlite_files :=
      match atlite_paths_fetcher with
      | .ok files => files
      | .error _ => []
    match dictGet?' atlite_files technology with
    | some atlite_file =>
      if exists_ atlite_file then .ok ("atlite", atlite_file)
      else .error (not_found_label ++ " '" ++ technology ++ "' was not found.")
    | Option.none =>
      .error (not_found_label ++ " '" ++ technology ++ "' was not found.")

/-! ## `src/core/models.py` — `SolarTechnologyConfig` -/

/-- The `huld_keys` set literal inside `SolarTechnologyConfig._infer_model`. -/
def huld_keys : List String :=
  ["efficiency", "c_temp_amb", "c_temp_irrad", "r_tamb", "r_tmod",
   "r_irradiance", "k_1", "k_2", "k_3", "k_4", "k_5", "k_6"]

/-- The `bofinger_keys` set literal inside `SolarTechnologyConfig._infer_model`. -/
def bofinger_keys : List String :=
  ["threshold", "area", "rated_production", "A", "B", "C", "D",
   "NOCT", "Tstd", "Tamb", "Intc", "ta"]

/-- `SolarTechnologyConfig._infer_model` (src/core/models.py): the set
subset tests `huld_keys.issubset(payload_keys)` (checked first) and
`bofinger_keys.issubset(payload_keys)`. -/
def _infer_model (payload : Dict) : Option String :=
  if huld_keys.all (fun k => containsKey payload k) then some "huld"
  else if bofinger_keys.all (fun k => containsKey payload k) then some "bofinger"
  else Option.none

/-- The `panel_parameters` unwrap-and-merge step at the start of
`SolarTechnologyConfig._unwrap_or_infer_payload` (src/core/models.py):
when the `panel_parameters` value is a dict, start from a copy of it and
`setdefault` each of the four sibling keys that is present with a
non-`None` value; otherwise leave the payload unchanged. -/
def _merge_panel_parameters (value : Dict) : Dict :=
  match pyGet value "panel_parameters" with
  | .dict panel_parameters =>
    ["name", "manufacturer", "source", "model"].foldl
      (fun merged key =>
        match dictGet? value key with
        | some v =>
          match v with
          | .none => merged
          | _ => dictSetdefault merged key v
        | Option.none => merged)
      panel_parameters
  | _ => value

/-- `SolarTechnologyConfig._unwrap_or_infer_payload` (src/core/models.py),
on dict payloads: unwrap/merge a `panel_parameters` wrapper, then infer
the `model` key when absent, then replace an absent-or-falsy `name` with
the literal `"API_Custom_Solar"`. -/
def _unwrap_or_infer_payload (value : Dict) : Dict :=
  let value := _merge_panel_parameters value
  let value :=
    if containsKey value "model" then value
    else
      match _infer_model value with
      | some inferred => dictSet value "model" (.str inferred)
      | Option.none => value
  if !containsKey value "name" || !pyTruthy (pyGet value "name") then
    dictSet value "name" (.str "API_Custom_Solar")
  else value

/-- The validated `SolarTechnologyConfig` pydantic model (src/core/models.py):
the `model`/`name`/bookkeeping fields plus the optional per-family numeric
fields. -/
structure SolarTechnologyConfig where
  model : String
  name : String
  manufacturer : Option String
  source : Option String
  inverter_efficiency : ℚ
  efficiency : Option ℚ
  c_temp_amb : Option ℚ
  c_temp_irrad : Option ℚ
  r_tamb : Option ℚ
  r_tmod : Option ℚ
  r_irradiance : Option ℚ
  k_1 : Option ℚ
  k_2 : Option ℚ
  k_3 : Option ℚ
  k_4 : Option ℚ
  k_5 : Option ℚ
  k_6 : Option ℚ
  threshold : Option ℚ
  area : Option ℚ
  rated_production : Option ℚ
  A : Option ℚ
  B : Option ℚ
  C : Option ℚ
  D : Option ℚ
  NOCT : Option ℚ
  Tstd : Option ℚ
  Tamb : Option ℚ
  Intc : Option ℚ
  ta : Option ℚ

/-- Pydantic parsing of one optional float field with an optional
constraint (`Field(gt=...)` etc.): absent or `None` yields `none`, a
numeric value must satisfy the constraint, anything else is a validation
error. -/
def parseOptFloat (d : Dict) (key : String) (check : ℚ → Bool) :
    Except String (Option ℚ) :=
  match dictGet? d key with
  | Option.none => .ok Option.none
  | some .none => .ok Option.none
  | some v =>
    match to_float v with
    | some q => if check q then .ok (some q) else .error (key ++ ": constraint failed")
    | Option.none => .error (key ++ ": not a number")

/-- Pydantic parsing of an optional string field (`manufacturer`, `source`). -/
def parseOptStr (d : Dict) (key : String) : Except String (Option String) :=
  match dictGet? d key with
  | Option.none => .ok Option.none
  | some .none => .ok Option.none
  | some (.str s) => .ok (some s)
  | some _ => .error (key ++ ": not a string")

/-- Pydantic parsing of the required `model : Literal["huld", "bofinger"]`
field. -/
def parseModelField (d : Dict) : Except String String :=
  match dictGet? d "model" with
  | some (.str s) =>
    if s = "huld" ∨ s = "bofinger" then .ok s
    else .error "model: not a permitted literal"
  | some _ => .error "model: not a permitted literal"
  | Option.none => .error "model: field required"

/-- Pydantic parsing of the required `name : str = Field(min_length=1)` field. -/
def parseNameField (d : Dict) : Except String String :=
  match dictGet? d "name" with
  | some (.str s) => if s = "" then .error "name: too short" else .ok s
  | some _ => .error "name: not a string"
  | Option.none => .error "name: field required"

/-- Pydantic parsing of the required
`inverter_efficiency : float = Field(gt=0, le=1)` field. -/
def parseInverterEfficiency (d : Dict) : Except String ℚ :=
  match dictGet? d "inverter_efficiency" with
  | some v =>
    match to_float v with
    | some q =>
      if 0 < q ∧ q ≤ 1 then .ok q
      else .error "inverter_efficiency: constraint failed"
    | Option.none => .error "inverter_efficiency: not a number"
  | Option.none => .error "inverter_efficiency: field required"

/-- The per-family optional field of a validated config, by field name
(the `getattr(self, field)` access in
`_validate_model_specific_fields`). -/
def SolarTechnologyConfig.getOptField (c : SolarTechnologyConfig) :
    String → Option ℚ
  | "efficiency" => c.efficiency
  | "c_temp_amb" => c.c_temp_amb
  | "c_temp_irrad" => c.c_temp_irrad
  | "r_tamb" => c.r_tamb
  | "r_tmod" => c.r_tmod
  | "r_irradiance" => c.r_irradiance
  | "k_1" => c.k_1
  | "k_2" => c.k_2
  | "k_3" => c.k_3
  | "k_4" => c.k_4
  | "k_5" => c.k_5
  | "k_6" => c.k_6
  | "threshold" => c.threshold
  | "area" => c.area
  | "rated_production" => c.rated_production
  | "A" => c.A
  | "B" => c.B
  | "C" => c.C
  | "D" => c.D
  | "NOCT" => c.NOCT
  | "Tstd" => c.Tstd
  | "Tamb" => c.Tamb
  | "Intc" => c.Intc
  | "ta" => c.ta
  | _ => Option.none

/-- The `huld_required` list literal inside
`SolarTechnologyConfig._validate_model_specific_fields`. -/
def huld_required : List String :=
  ["efficiency", "c_temp_amb", "c_temp_irrad", "r_tamb", "r_tmod",
   "r_irradiance", "k_1", "k_2", "k_3", "k_4", "k_5", "k_6"]

/-- The `bofinger_required` list literal inside
`SolarTechnologyConfig._validate_model_specific_fields`. -/
def bofinger_required : List String :=
  ["threshold", "area", "rated_production", "A", "B", "C", "D",
   "NOCT", "Tstd", "Tamb", "Intc", "ta"]

/-- `SolarTechnologyConfig._validate_model_specific_fields`
(src/core/models.py): every required field of the resolved family must be
non-`None`, else a `ValueError` naming every missing field. -/
def _validate_model_specific_fields (c : SolarTechnologyConfig) :
    Except String SolarTechnologyConfig :=
  let required_fields := if c.model = "huld" then huld_required else bofinger_required
  let missing := required_fields.filter (fun f => (c.getOptField f).isNone)
  if missing.isEmpty then .ok c
  else
    .error ("Solar model '" ++ c.model ++ "' is missing required field(s): "
      ++ String.intercalate ", " missing)

/-- `SolarTechnologyConfig.model_validate` on a dict payload: the
mode="before" validator, then pydantic field parsing, then the
mode="after" validator. -/
def model_validate (payload : Dict) : Except String SolarTechnologyConfig := do
  let v := _unwrap_or_infer_payload payload
  let model ← parseModelField v
  let name ← parseNameField v
  let manufacturer ← parseOptStr v "manufacturer"
  let source ← parseOptStr v "source"
  let inverter_efficiency ← parseInverterEfficiency v
  let efficiency ← parseOptFloat v "efficiency" (fun q => 0 < q)
  let c_temp_amb ← parseOptFloat v "c_temp_amb" (fun _ => true)
  let c_temp_irrad ← parseOptFloat v "c_temp_irrad" (fun _ => true)
  let r_tamb ← parseOptFloat v "r_tamb" (fun _ => true)
  let r_tmod ← parseOptFloat v "r_tmod" (fun _ => true)
  let r_irradiance ← parseOptFloat v "r_irradiance" (fun q => 0 < q)
  let k_1 ← parseOptFloat v "k_1" (fun _ => true)
  let k_2 ← parseOptFloat v "k_2" (fun _ => true)
  let k_3 ← parseOptFloat v "k_3" (fun _ => true)
  let k_4 ← parseOptFloat v "k_4" (fun _ => true)
  let k_5 ← parseOptFloat v "k_5" (fun _ => true)
  let k_6 ← parseOptFloat v "k_6" (fun _ => true)
  let threshold ← parseOptFloat v "threshold" (fun _ => true)
  let area ← parseOptFloat v "area" (fun q => 0 < q)
  let rated_production ← parseOptFloat v "rated_production" (fun q => 0 < q)
  let A ← parseOptFloat v "A" (fun _ => true)
  let B ← parseOptFloat v "B" (fun _ => true)
  let C ← parseOptFloat v "C" (fun _ => true)
  let D ← parseOptFloat v "D" (fun _ => true)
  let NOCT ← parseOptFloat v "NOCT" (fun _ => true)
  let Tstd ← parseOptFloat v "Tstd" (fun _ => true)
  let Tamb ← parseOptFloat v "Tamb" (fun _ => true)
  let Intc ← parseOptFloat v "Intc" (fun _ => true)
  let ta ← parseOptFloat v "ta" (fun _ => true)
  _validate_model_specific_fields
    { model, name, manufacturer, source, inverter_efficiency,
      efficiency, c_temp_amb, c_temp_irrad, r_tamb, r_tmod, r_irradiance,
      k_1, k_2, k_3, k_4, k_5, k_6,
      threshold, area, rated_production, A, B, C, D,
      NOCT, Tstd, Tamb, Intc, ta }

/-- `SolarTechnologyConfig.from_payload` (src/core/models.py):
`normalized = dict(payload); normalized.setdefault("name", default_name)`
then `model_validate`. -/
def from_payload (payload : Dict) (default_name : String) :
    Except String SolarTechnologyConfig :=
  model_validate (dictSetdefault payload "name" (.str default_name))

/-- Projection used to state claims about the `name` of a successfully
validated config. -/
def solarConfigName : Except String SolarTechnologyConfig → Option String
  | .ok c => some c.name
  | .error _ => Option.none

/-! ## `src/service/runner.py` — cutout fetch planning -/

/-- `_is_remote_target` (src/service/runner.py): shorter than 3
characters is local, a Windows drive-letter pattern (`target[1:3] ==
":\\"`) is local, otherwise remote iff the string contains a colon. -/
def _is_remote_target (target : String) : Bool :=
  if target.length < 3 then false
  else if (target.data.drop 1).take 2 = [':', '\\'] then false
  else target.data.contains ':'

/-- Python `s.rstrip("/")`: drop every trailing slash. -/
def rstrip_slash (s : String) : String :=
  String.mk ((s.data.reverse.dropWhile (fun c => c = '/')).reverse)

/-- `_resolve_target_path` (src/service/runner.py):
`f"{target.rstrip(chr(47))}/{filename}"`. -/
def _resolve_target_path (target filename : String) : String :=
  rstrip_slash target ++ "/" ++ filename

/-- The string rendering of `Path(target) / filename` (pathlib collapses
a trailing slash on `target`, like `rstrip`). -/
def path_join (target filename : String) : String :=
  rstrip_slash target ++ "/" ++ filename

/-- Split a character list at the first colon (`target.split(":", 1)`). -/
def splitFirstColon : List Char → Option (List Char × List Char)
  | [] => Option.none
  | c :: rest =>
    if c = ':' then some ([], rest)
    else (splitFirstColon rest).map (fun p => (c :: p.1, p.2))

/-- `_remote_target_parts` (src/service/runner.py): split the target at
the first colon into `(host, remote_dir)`; either part being empty (or no
colon being present, which makes the Python tuple unpacking itself raise)
is an error. -/
def _remote_target_parts (target : String) : Except String (String × String) :=
  match splitFirstColon target.data with
  | some (host, remote_dir) =>
    if host.isEmpty || remote_dir.isEmpty then
      .error ("Invalid remote target '" ++ target ++ "'.")
    else .ok (String.mk host, String.mk remote_dir)
  | Option.none => .error "not enough values to unpack"

/-- The destination string reported by `_copy_to_remote_target`
(src/service/runner.py): `f"{host}:{remote_file}"` with `remote_file =
_resolve_target_path(remote_dir, filename)`. -/
def _copy_to_remote_target_dest (target filename : String) :
    Except String String := do
  let parts ← _remote_target_parts target
  .ok (parts.1 ++ ":" ++ _resolve_target_path parts.2 filename)

/-- The externally observable per-entry effects of one iteration of the
`fetch_cutouts` loop: what lands in `skipped` and `fetched`, how often
`cutout.prepare` is invoked, and whether a pre-existing local file is
unlinked before the rewrite. -/
structure FetchEffects where
  skipped : List String
  fetched : List String
  prepare_calls : Nat
  deleted_before_write : Bool
  deriving DecidableEq

/-- One iteration of the `fetch_cutouts` entry loop
(src/service/runner.py, with `report_validate_existing=False` so the
validation-report block is inactive).  `exists_` abstracts the
existence probe (`_remote_file_exists` for remote targets,
`local_file.exists()` for local ones). -/
def process_entry (filename target : String) (exists_ force_refresh : Bool) :
    Except String FetchEffects :=
  let is_remote := _is_remote_target target
  let destination := _resolve_target_path target filename
  if exists_ && !force_refresh then
    .ok { skipped := [destination], fetched := [], prepare_calls := 0,
          deleted_before_write := false }
  else if is_remote then
    match _copy_to_remote_target_dest target filename with
    | .ok dest =>
      .ok { skipped := [], fetched := [dest], prepare_calls := 1,
            deleted_before_write := false }
    | .error e => .error e
  else
    .ok { skipped := [], fetched := [path_join target filename],
          prepare_calls := 1,
          deleted_before_write := force_refresh && exists_ }

/-! ## `src/core/catalog.py` — catalog reconciliation -/

/-- Python string comparison (code-point lexicographic) on character
lists, as a Boolean `≤`. -/
def strListLe : List Char → List Char → Bool
  | [], _ => true
  | _ :: _, [] => false
  | a :: as_, b :: bs =>
    if a.toNat < b.toNat then true
    else if b.toNat < a.toNat then false
    else strListLe as_ bs

/-- Python `a <= b` on strings. -/
def pyStrLe (a b : String) : Bool := strListLe a.data b.data

/-- Python `sorted(set(xs))` for string lists: distinct elements in
ascending code-point-lexicographic order. -/
def pySortedSet (xs : List String) : List String :=
  List.insertionSort (fun a b => pyStrLe a b = true) xs.dedup

/-- `get_available_turbines` (src/core/catalog.py):
`sorted(set(catalog["atlite"] + catalog["custom_turbines"]))`, with the
two catalog lists abstracted as inputs. -/
def get_available_turbines (atlite custom_turbines : List String) : List String :=
  pySortedSet (atlite ++ custom_turbines)

/-- `get_available_solar_technologies` (src/core/catalog.py):
`sorted(set(catalog["atlite"] + catalog["custom_solar_technologies"]))`. -/
def get_available_solar_technologies
    (atlite custom_solar_technologies : List String) : List String :=
  pySortedSet (atlite ++ custom_solar_technologies)

/-! ## `src/service/api/cutout_metadata.py` — time normalization -/

/-- A `pandas.Timestamp` restricted to the fields the time-inference code
reads (plus minute/second for ISO rendering). -/
structure Timestamp where
  year : Nat
  month : Nat
  day : Nat
  hour : Nat
  minute : Nat
  second : Nat
  deriving DecidableEq

/-- Gregorian leap-year rule. -/
def isLeapYear (y : Nat) : Bool :=
  (y % 4 = 0 && y % 100 ≠ 0) || y % 400 = 0

/-- The day component of `pd.Period(start, freq = chr(77)).end_time`: the
number of days of the month containing `start`. -/
def daysInMonth (year month : Nat) : Nat :=
  if month = 2 then (if isLeapYear year then 29 else 28)
  else if month = 4 ∨ month = 6 ∨ month = 9 ∨ month = 11 then 30
  else 31

/-- Zero-padded decimal rendering (`f-string` `:02d` / `:04d`). -/
def padNum (width n : Nat) : String :=
  let s := toString n
  String.mk (List.replicate (width - s.length) '0') ++ s

/-- `Timestamp.isoformat()` at second resolution. -/
def Timestamp.isoformat (t : Timestamp) : String :=
  padNum 4 t.year ++ "-" ++ padNum 2 t.month ++ "-" ++ padNum 2 t.day ++ "T"
    ++ padNum 2 t.hour ++ ":" ++ padNum 2 t.minute ++ ":" ++ padNum 2 t.second

/-- The `str | list[str]` result type of `_infer_time_value`, also used
for config-side `time` specs. -/
inductive TimeValue : Type where
  | str : String → TimeValue
  | list : List String → TimeValue
  deriving DecidableEq

/-- `_infer_time_value` (src/service/api/cutout_metadata.py): a bare
year string for a full-calendar-year range, a year-month string for a
full-calendar-month range, else the two ISO timestamps. -/
def _infer_time_value (start end_ : Timestamp) : TimeValue :=
  if start.year = end_.year ∧ start.month = 1 ∧ start.day = 1 ∧ start.hour = 0
      ∧ end_.month = 12 ∧ end_.day = 31 ∧ end_.hour = 23 then
    .str (padNum 4 start.year)
  else if start.year = end_.year ∧ start.month = end_.month ∧ start.day = 1
      ∧ start.hour = 0 ∧ end_.day = daysInMonth start.year start.month
      ∧ end_.hour = 23 then
    .str (padNum 4 start.year ++ "-" ++ padNum 2 start.month)
  else
    .list [start.isoformat, end_.isoformat]

/-- `_normalize_time` (src/service/runner.py): join list-valued time
specs with a pipe, keep strings as they are. -/
def _normalize_time : TimeValue → String
  | .list xs => String.intercalate "|" xs
  | .str s => s

/-- Whether a `PyValue` is a dict (`isinstance(value, dict)`). -/
def isDict : PyValue → Bool
  | .dict _ => true
  | _ => false

/-! ## Dictionary lemmas -/

theorem dictGet?_eq_none_iff (d : Dict) (k : String) :
    dictGet? d k = Option.none ↔ containsKey d k = false := by
  induction d with
  | nil => simp [dictGet?, containsKey]
  | cons e t ih =>
    by_cases h : e.1 = k
    · obtain ⟨k', v⟩ := e
      simp_all [dictGet?, containsKey]
    · obtain ⟨k', v⟩ := e
      simp_all [dictGet?, containsKey]

theorem dictGet?_append_last (d : Dict) (k' : String) (v : PyValue) (k : String) :
    dictGet? (d ++ [(k', v)]) k =
      match dictGet? d k with
      | some x => some x
      | Option.none => if k' = k then some v else Option.none := by
  induction d with
  | nil => simp [dictGet?]
  | cons e t ih =>
    obtain ⟨k₀, v₀⟩ := e
    by_cases h : k₀ = k <;> simp [dictGet?, h, ih]

theorem dictGet?_replaceValue (d : Dict) (k : String) (v : PyValue) (k'' : String) :
    dictGet? (d.map (fun e => if e.1 = k then (e.1, v) else e)) k'' =
      match dictGet? d k'' with
      | some x => if k = k'' then some v else some x
      | Option.none => Option.none := by
  induction d with
  | nil => simp [dictGet?]
  | cons e t ih =>
    obtain ⟨k₀, v₀⟩ := e
    simp only [List.map_cons]
    by_cases h0 : k₀ = k
    · rw [if_pos h0]
      by_cases h2 : k₀ = k''
      · subst h2
        simp [dictGet?, h0.symm]
      · simp [dictGet?, h2, ih]
    · rw [if_neg h0]
      by_cases h2 : k₀ = k''
      · subst h2
        have hne : ¬(k = k₀) := fun hh => h0 hh.symm
        simp [dictGet?, hne]
      · simp [dictGet?, h2, ih]

theorem dictGet?_dictSet_self (d : Dict) (k : String) (v : PyValue) :
    dictGet? (dictSet d k v) k = some v := by
  unfold dictSet
  by_cases h : containsKey d k
  · rw [if_pos h, dictGet?_replaceValue]
    obtain ⟨x, hx⟩ : ∃ x, dictGet? d k = some x := by
      cases hd : dictGet? d k
      · rw [dictGet?_eq_none_iff] at hd
        simp [hd] at h
      · exact ⟨_, rfl⟩
    simp [hx]
  · rw [if_neg h, dictGet?_append_last,
      (dictGet?_eq_none_iff d k).mpr (by simpa using h)]
    simp

theorem dictGet?_dictSet_ne (d : Dict) (k' : String) (v : PyValue) (k : String)
    (h : k' ≠ k) : dictGet? (dictSet d k' v) k = dictGet? d k := by
  unfold dictSet
  by_cases hc : containsKey d k'
  · rw [if_pos hc, dictGet?_replaceValue]
    cases hd : dictGet? d k
    · rfl
    · simp [h]
  · rw [if_neg hc, dictGet?_append_last]
    cases hd : dictGet? d k
    · simp [h]
    · simp

theorem dictGet?_dictSetdefault_of_some (d : Dict) (k' : String) (v : PyValue)
    (k : String) (x : PyValue) (h : dictGet? d k = some x) :
    dictGet? (dictSetdefault d k' v) k = some x := by
  unfold dictSetdefault
  by_cases hc : containsKey d k'
  · simp [hc, h]
  · rw [if_neg hc, dictGet?_append_last, h]

theorem dictGet?_dictSetdefault_ne (d : Dict) (k' : String) (v : PyValue)
    (k : String) (h : k' ≠ k) :
    dictGet? (dictSetdefault d k' v) k = dictGet? d k := by
  unfold dictSetdefault
  by_cases hc : containsKey d k'
  · simp [hc]
  · rw [if_neg hc, dictGet?_append_last]
    cases hd : dictGet? d k
    · simp [h]
    · simp

theorem dictGet?_dictSetdefault_self_absent (d : Dict) (k : String) (v : PyValue)
    (h : containsKey d k = false) :
    dictGet? (dictSetdefault d k v) k = some v := by
  unfold dictSetdefault
  rw [if_neg (by simp [h]), dictGet?_append_last,
    (dictGet?_eq_none_iff d k).mpr h]
  simp

/-! ## Claim C1 -/

theorem lt_foldl_max_iff (c a : ℚ) (l : List ℚ) :
    c < l.foldl max a ↔ c < a ∨ ∃ x ∈ l, c < x := by
  induction l generalizing a with
  | nil => simp
  | cons b t ih =>
    simp only [List.foldl_cons]
    rw [ih]
    simp only [lt_max_iff, List.mem_cons]
    constructor
    · rintro ((h | h) | ⟨x, hx, h⟩)
      · exact Or.inl h
      · exact Or.inr ⟨b, Or.inl rfl, h⟩
      · exact Or.inr ⟨x, Or.inr hx, h⟩
    · rintro (h | ⟨x, (rfl | hx), h⟩)
      · exact Or.inl (Or.inl h)
      · exact Or.inl (Or.inr h)
      · exact Or.inr ⟨x, hx, h⟩

/-- C1: `infer_power_scale` collects the absolute values of the numeric
rated-power field `P` and of every numeric entry of the `POW` array, and
returns 1 when nothing is collected, 1 when the maximum collected
magnitude is at most 100, and 1/1000 when it exceeds 100; and
`to_curve_points` applies this single scale uniformly to every power
value extracted from the definition. -/
theorem c1_power_scale_inference (payload : Dict) :
    (collected_magnitudes payload = [] → infer_power_scale payload = 1) ∧
    ((∀ v ∈ collected_magnitudes payload, v ≤ 100) →
      infer_power_scale payload = 1) ∧
    ((∃ v ∈ collected_magnitudes payload, 100 < v) →
      infer_power_scale payload = 1/1000) ∧
    (∀ speeds powers, pyGet payload "V" = .list speeds →
      pyGet payload "POW" = .list powers →
      ∀ p ∈ speeds.zip powers, ∀ s q, to_float p.1 = some s →
        to_float p.2 = some q →
        (⟨s, q * infer_power_scale payload⟩ : CurvePoint) ∈
          to_curve_points payload) := by
  refine ⟨?_, ?_, ?_, ?_⟩
  · intro h
    simp [infer_power_scale, h]
  · intro h
    unfold infer_power_scale
    cases hc : collected_magnitudes payload with
    | nil => rfl
    | cons v vs =>
      have hmax : ¬(100 < vs.foldl max v) := by
        rw [lt_foldl_max_iff]
        rintro (h1 | ⟨x, hx, h1⟩)
        · exact absurd h1 (not_lt.mpr (h v (by rw [hc]; exact List.mem_cons_self _ _)))
        · exact absurd h1
            (not_lt.mpr (h x (by rw [hc]; exact List.mem_cons_of_mem _ hx)))
      show (if 100 < vs.foldl max v then (1 : ℚ)/1000 else 1) = 1
      rw [if_neg hmax]
  · rintro ⟨v0, hv0, hlt⟩
    unfold infer_power_scale
    cases hc : collected_magnitudes payload with
    | nil =>
      rw [hc] at hv0
      cases hv0
    | cons v vs =>
      rw [hc] at hv0
      have hmax : 100 < vs.foldl max v := by
        rw [lt_foldl_max_iff]
        rcases List.mem_cons.mp hv0 with h1 | h1
        · exact Or.inl (h1 ▸ hlt)
        · exact Or.inr ⟨v0, h1, hlt⟩
      show (if 100 < vs.foldl max v then (1 : ℚ)/1000 else 1) = 1/1000
      rw [if_pos hmax]
  · intro speeds powers hV hP p hp s q hs hq
    unfold to_curve_points
    rw [hV, hP]
    refine List.mem_filterMap.mpr ⟨p, hp, ?_⟩
    rw [hs, hq]

/-- The concrete turbine payload used to witness C1. -/
def c1Payload : Dict :=
  [("HUB_HEIGHT", .int 120), ("P", .int 5600),
   ("V", .list [.int 0, .int 10, .int 20]),
   ("POW", .list [.int 0, .int 3200, .int 5600])]

/-- Witness for C1: on a kW-scale payload the inferred scale is 1/1000
and the curve point for speed 10 carries the scaled power. -/
theorem c1_power_scale_inference_witness :
    infer_power_scale c1Payload = 1/1000 ∧
    (⟨10, 3200 * infer_power_scale c1Payload⟩ : CurvePoint) ∈
      to_curve_points c1Payload := by
  constructor
  · exact (c1_power_scale_inference c1Payload).2.2.1 ⟨5600, by decide, by decide⟩
  · refine (c1_power_scale_inference c1Payload).2.2.2
      [.int 0, .int 10, .int 20] [.int 0, .int 3200, .int 5600] rfl rfl
      (.int 10, .int 3200) ?_ 10 3200 rfl rfl
    exact List.mem_cons_of_mem _ (List.mem_cons_self _ _)

/-! ## Claims C2 and C8 -/

/-- C2: when the local custom directory holds `{identifier}.yaml`, the
resolver returns provenance `custom` with that file, for every catalog
fetcher — in particular also when the library catalog maps the same
identifier to a file. -/
theorem c2_custom_wins (exists_ : String → Bool) (technology local_dir : String)
    (atlite_paths_fetcher : Except Unit (List (String × String)))
    (not_found_label : String)
    (h : exists_ (local_dir ++ "/" ++ technology ++ ".yaml") = true) :
    _resolve_technology_file exists_ technology local_dir atlite_paths_fetcher
        not_found_label
      = .ok ("custom", local_dir ++ "/" ++ technology ++ ".yaml") := by
  simp [_resolve_technology_file, h]

/-- Witness for C2: a custom `config/wind/X.yaml` wins although the
catalog maps `X` to an (existing) atlite file. -/
theorem c2_custom_wins_witness :
    _resolve_technology_file
        (fun p => p = "config/wind/X.yaml" || p = "atlite/X.yaml") "X"
        "config/wind" (.ok [("X", "atlite/X.yaml")]) "Turbine"
      = .ok ("custom", "config/wind/X.yaml") :=
  c2_custom_wins
    (fun p => p = "config/wind/X.yaml" || p = "atlite/X.yaml") "X"
    "config/wind" (.ok [("X", "atlite/X.yaml")]) "Turbine" (by decide)

/-- C8: with no local custom file, when the catalog fetch raised or the
catalog does not map the identifier to an existing file, resolution
returns the not-found error whose message contains the label and the
identifier, and a fetcher exception behaves exactly like an empty
catalog (it is never propagated). -/
theorem c8_not_found_error (exists_ : String → Bool)
    (technology local_dir not_found_label : String)
    (atlite_paths_fetcher : Except Unit (List (String × String)))
    (hlocal : exists_ (local_dir ++ "/" ++ technology ++ ".yaml") = false)
    (hmiss : ∀ f,
      dictGet?'
          (match atlite_paths_fetcher with
            | .ok files => files
            | .error _ => []) technology = some f →
      exists_ f = false) :
    (_resolve_technology_file exists_ technology local_dir atlite_paths_fetcher
        not_found_label
      = .error (not_found_label ++ " '" ++ technology ++ "' was not found.")) ∧
    (∃ a b, not_found_label ++ " '" ++ technology ++ "' was not found."
      = a ++ not_found_label ++ b) ∧
    (∃ a b, not_found_label ++ " '" ++ technology ++ "' was not found."
      = a ++ technology ++ b) ∧
    (∀ u, _resolve_technology_file exists_ technology local_dir (.error u)
        not_found_label
      = _resolve_technology_file exists_ technology local_dir (.ok [])
          not_found_label) := by
  refine ⟨?_, ⟨"", " '" ++ technology ++ "' was not found.", ?_⟩,
    ⟨not_found_label ++ " '", "' was not found.", ?_⟩, ?_⟩
  · unfold _resolve_technology_file
    rw [if_neg (by simp [hlocal])]
    cases atlite_paths_fetcher with
    | error u => rfl
    | ok files =>
      cases hf : dictGet?' files technology with
      | none => simp [hf]
      | some f =>
        simp only [hf]
        rw [if_neg (by simp [hmiss f hf])]
  · simp [String.append_assoc]
  · simp [String.append_assoc]
  · intro u
    rfl

/-- Witness for C8: a failing catalog fetcher with no custom file yields
the not-found message containing label and identifier. -/
theorem c8_not_found_error_witness :
    _resolve_technology_file (fun _ => false) "X" "config/wind" (.error ())
        "Turbine"
      = .error ("Turbine" ++ " '" ++ "X" ++ "' was not found.") :=
  (c8_not_found_error (fun _ => false) "X" "config/wind" "Turbine" (.error ())
    (by decide)
    (fun f hf => by simp [dictGet?'] at hf)).1

/-! ## Claim C7 -/

/-- C7: a target string is classified remote iff it is at least 3
characters long, its second and third characters are not the Windows
drive-letter pattern, and it contains a colon. -/
theorem c7_remote_target_heuristic (target : String) :
    _is_remote_target target = true ↔
      (3 ≤ target.length ∧ (target.data.drop 1).take 2 ≠ [':', '\\']
        ∧ ':' ∈ target.data) := by
  unfold _is_remote_target
  by_cases h1 : target.length < 3
  · rw [if_pos h1]
    simp only [Bool.false_eq_true, false_iff]
    rintro ⟨h3, -, -⟩
    omega
  · rw [if_neg h1]
    by_cases h2 : (target.data.drop 1).take 2 = [':', '\\']
    · rw [if_pos h2]
      simp only [Bool.false_eq_true, false_iff]
      rintro ⟨-, hne, -⟩
      exact hne h2
    · rw [if_neg h2]
      constructor
      · intro h
        exact ⟨by omega, h2, by simpa [List.elem_iff] using h⟩
      · rintro ⟨-, -, hmem⟩
        simpa [List.elem_iff] using hmem

/-! ## Claim C5 -/

/-- C5: for an entry whose destination exists, `forceRefresh = false`
records the destination as skipped without invoking preparation, and
`forceRefresh = true` invokes preparation exactly once, deletes the
pre-existing local file before rewriting (local targets), and records
the destination in the fetched list. -/
theorem c5_fetch_skip_policy (filename target : String) :
    (process_entry filename target true false =
      .ok { skipped := [_resolve_target_path target filename], fetched := [],
            prepare_calls := 0, deleted_before_write := false }) ∧
    (∀ eff, process_entry filename target true true = .ok eff →
      eff.prepare_calls = 1) ∧
    (_is_remote_target target = false →
      process_entry filename target true true =
        .ok { skipped := [], fetched := [path_join target filename],
              prepare_calls := 1, deleted_before_write := true }) ∧
    (∀ dest, _copy_to_remote_target_dest target filename = .ok dest →
      _is_remote_target target = true →
      process_entry filename target true true =
        .ok { skipped := [], fetched := [dest], prepare_calls := 1,
              deleted_before_write := false }) := by
  refine ⟨rfl, ?_, ?_, ?_⟩
  · intro eff h
    simp only [process_entry] at h
    rw [if_neg (by simp)] at h
    by_cases hr : _is_remote_target target = true
    · rw [if_pos hr] at h
      cases hc : _copy_to_remote_target_dest target filename with
      | ok dest =>
        rw [hc] at h
        cases h
        rfl
      | error e =>
        rw [hc] at h
        exact Except.noConfusion h
    · rw [if_neg hr] at h
      cases h
      rfl
  · intro hlocal
    simp only [process_entry]
    rw [if_neg (by simp), if_neg (by simp [hlocal])]
    rfl
  · intro dest hdest hr
    simp only [process_entry]
    rw [if_neg (by simp), if_pos hr, hdest]

/-- Witness for C5: local target `data` with existing `data/foo.nc`:
skipped without preparation when not forced, prepared once, deleted and
rewritten when forced. -/
theorem c5_fetch_skip_policy_witness :
    process_entry "foo.nc" "data" true false =
      .ok { skipped := ["data/foo.nc"], fetched := [], prepare_calls := 0,
            deleted_before_write := false } ∧
    process_entry "foo.nc" "data" true true =
      .ok { skipped := [], fetched := ["data/foo.nc"], prepare_calls := 1,
            deleted_before_write := true } := by
  constructor
  · exact (c5_fetch_skip_policy "foo.nc" "data").1
  · exact (c5_fetch_skip_policy "foo.nc" "data").2.2.1 (by decide)

/-! ## Claim C6 -/

theorem yearStr_ne_monthStr (y m : Nat) :
    padNum 4 y ≠ padNum 4 y ++ "-" ++ padNum 2 m := by
  intro h
  have hlen := congrArg String.length h
  rw [String.length_append, String.length_append] at hlen
  have hdash : ("-" : String).length = 1 := rfl
  omega

/-- C6: the normalized observed time string is the bare year exactly for
a full-calendar-year range, the year-month tag exactly for a
full-calendar-month range, and the ISO-timestamp pair otherwise;
config-side lists are joined with a pipe, so declared time `"2024"`
matches a full-2024 range and mismatches a Jan–Jun 2024 range. -/
theorem c6_time_value_normalization (s e : Timestamp) :
    ((_infer_time_value s e = .str (padNum 4 s.year)) ↔
      (s.year = e.year ∧ s.month = 1 ∧ s.day = 1 ∧ s.hour = 0
        ∧ e.month = 12 ∧ e.day = 31 ∧ e.hour = 23)) ∧
    ((_infer_time_value s e
        = .str (padNum 4 s.year ++ "-" ++ padNum 2 s.month)) ↔
      (s.year = e.year ∧ s.month = e.month ∧ s.day = 1 ∧ s.hour = 0
        ∧ e.day = daysInMonth s.year s.month ∧ e.hour = 23)) ∧
    (¬(s.year = e.year ∧ s.month = 1 ∧ s.day = 1 ∧ s.hour = 0
        ∧ e.month = 12 ∧ e.day = 31 ∧ e.hour = 23) →
      ¬(s.year = e.year ∧ s.month = e.month ∧ s.day = 1 ∧ s.hour = 0
        ∧ e.day = daysInMonth s.year s.month ∧ e.hour = 23) →
      _infer_time_value s e = .list [s.isoformat, e.isoformat]) ∧
    (∀ xs, _normalize_time (.list xs) = String.intercalate "|" xs) ∧
    (_normalize_time (.str "2024")
      = _normalize_time
          (_infer_time_value ⟨2024, 1, 1, 0, 0, 0⟩ ⟨2024, 12, 31, 23, 0, 0⟩)) ∧
    (_normalize_time (.str "2024")
      ≠ _normalize_time
          (_infer_time_value ⟨2024, 1, 1, 0, 0, 0⟩ ⟨2024, 6, 30, 23, 0, 0⟩)) := by
  by_cases h1 : s.year = e.year ∧ s.month = 1 ∧ s.day = 1 ∧ s.hour = 0
      ∧ e.month = 12 ∧ e.day = 31 ∧ e.hour = 23
  · have hval : _infer_time_value s e = .str (padNum 4 s.year) := by
      unfold _infer_time_value
      rw [if_pos h1]
    refine ⟨by simp [hval, h1], ?_, fun hn _ => absurd h1 hn, fun xs => rfl,
      by decide, by decide⟩
    constructor
    · intro hEq
      rw [hval] at hEq
      injection hEq with h
      exact absurd h (yearStr_ne_monthStr _ _)
    · rintro ⟨-, hm, -, -, -, -⟩
      obtain ⟨-, h1m, -, -, h1em, -, -⟩ := h1
      omega
  · by_cases h2 : s.year = e.year ∧ s.month = e.month ∧ s.day = 1 ∧ s.hour = 0
        ∧ e.day = daysInMonth s.year s.month ∧ e.hour = 23
    · have hval : _infer_time_value s e
          = .str (padNum 4 s.year ++ "-" ++ padNum 2 s.month) := by
        unfold _infer_time_value
        rw [if_neg h1, if_pos h2]
      refine ⟨?_, by simp [hval, h2], fun _ hn => absurd h2 hn, fun xs => rfl,
        by decide, by decide⟩
      constructor
      · intro hEq
        rw [hval] at hEq
        injection hEq with h
        exact absurd h.symm (yearStr_ne_monthStr _ _)
      · intro hc1
        exact absurd hc1 h1
    · have hval : _infer_time_value s e = .list [s.isoformat, e.isoformat] := by
        unfold _infer_time_value
        rw [if_neg h1, if_neg h2]
      refine ⟨?_, ?_, fun _ _ => hval, fun xs => rfl, by decide, by decide⟩
      · rw [hval]
        constructor
        · intro h
          exact TimeValue.noConfusion h
        · intro hc1
          exact absurd hc1 h1
      · rw [hval]
        constructor
        · intro h
          exact TimeValue.noConfusion h
        · intro hc2
          exact absurd hc2 h2

/-- Witness for C6: a full-2024 range yields the bare year tag. -/
theorem c6_time_value_normalization_witness :
    _infer_time_value ⟨2024, 1, 1, 0, 0, 0⟩ ⟨2024, 12, 31, 23, 0, 0⟩
      = .str (padNum 4 2024) :=
  (c6_time_value_normalization ⟨2024, 1, 1, 0, 0, 0⟩
    ⟨2024, 12, 31, 23, 0, 0⟩).1.mpr (by decide)

/-! ## Claim C10 -/

theorem strListLe_total (as bs : List Char) :
    strListLe as bs = true ∨ strListLe bs as = true := by
  induction as generalizing bs with
  | nil => left; rfl
  | cons a t ih =>
    cases bs with
    | nil => right; rfl
    | cons b u =>
      by_cases hab : a.toNat < b.toNat
      · left
        simp [strListLe, hab]
      · by_cases hba : b.toNat < a.toNat
        · right
          simp [strListLe, hba]
        · rcases ih u with h | h
          · left
            simp [strListLe, hab, hba, h]
          · right
            simp [strListLe, hab, hba, h]

theorem strListLe_trans (as bs cs : List Char)
    (h1 : strListLe as bs = true) (h2 : strListLe bs cs = true) :
    strListLe as cs = true := by
  induction as generalizing bs cs with
  | nil => rfl
  | cons a t ih =>
    cases bs with
    | nil => exact absurd h1 (by simp [strListLe])
    | cons b u =>
      cases cs with
      | nil => exact absurd h2 (by simp [strListLe])
      | cons c w =>
        simp only [strListLe] at h1 h2 ⊢
        by_cases hab : a.toNat < b.toNat
        · by_cases hbc : b.toNat < c.toNat
          · rw [if_pos (by omega)]
          · rw [if_neg hbc] at h2
            by_cases hcb : c.toNat < b.toNat
            · rw [if_pos hcb] at h2
              exact absurd h2 (by simp)
            · rw [if_pos (by omega)]
        · rw [if_neg hab] at h1
          by_cases hba : b.toNat < a.toNat
          · rw [if_pos hba] at h1
            exact absurd h1 (by simp)
          · rw [if_neg hba] at h1
            by_cases hbc : b.toNat < c.toNat
            · rw [if_pos (by omega)]
            · rw [if_neg hbc] at h2
              by_cases hcb : c.toNat < b.toNat
              · rw [if_pos hcb] at h2
                exact absurd h2 (by simp)
              · rw [if_neg hcb] at h2
                rw [if_neg (by omega), if_neg (by omega)]
                exact ih u w h1 h2

/-- C10: the available-technology lists are sorted (code-point
lexicographic, mirroring Python `sorted`), duplicate-free, and contain a
name iff it occurs in the atlite catalog list or in the local custom
list; both endpoints share this behaviour. -/
theorem c10_available_union (atlite custom : List String) :
    List.Sorted (fun a b => pyStrLe a b = true)
      (get_available_turbines atlite custom) ∧
    (get_available_turbines atlite custom).Nodup ∧
    (∀ s, s ∈ get_available_turbines atlite custom ↔
      s ∈ atlite ∨ s ∈ custom) ∧
    get_available_solar_technologies atlite custom
      = get_available_turbines atlite custom := by
  haveI htot : IsTotal String (fun a b => pyStrLe a b = true) :=
    ⟨fun a b => strListLe_total a.data b.data⟩
  haveI htrans : IsTrans String (fun a b => pyStrLe a b = true) :=
    ⟨fun a b c => strListLe_trans a.data b.data c.data⟩
  refine ⟨?_, ?_, ?_, rfl⟩
  · exact List.sorted_insertionSort _ _
  · exact (List.perm_insertionSort _ _).nodup_iff.mpr
      (List.nodup_dedup (atlite ++ custom))
  · intro s
    unfold get_available_turbines pySortedSet
    rw [(List.perm_insertionSort _ _).mem_iff, List.mem_dedup, List.mem_append]

/-! ## Claim C3 -/

theorem merge_id_of_not_dict (d : Dict)
    (h : isDict (pyGet d "panel_parameters") = false) :
    _merge_panel_parameters d = d := by
  unfold _merge_panel_parameters
  cases hpp : pyGet d "panel_parameters" <;> simp_all [isDict]

theorem except_bind_ok {α β : Type} (x : Except String α)
    (f : α → Except String β) (b : β) :
    (x >>= f) = .ok b ↔ ∃ a, x = .ok a ∧ f a = .ok b := by
  cases x with
  | ok a => simp [Bind.bind, Except.bind]
  | error e => simp [Bind.bind, Except.bind]

/-- C3: on a solar payload with no `model` key (and no wrapper), a full
huld field set infers huld (also when the bofinger set is full too), a
full bofinger set without a full huld set infers bofinger, and when each
family's required set is only partially present no model is inferred and
validation fails. -/
theorem c3_model_inference (payload : Dict)
    (hnowrap : isDict (pyGet payload "panel_parameters") = false)
    (hnomodel : containsKey payload "model" = false) :
    (huld_keys.all (fun k => containsKey payload k) = true →
      _infer_model payload = some "huld") ∧
    (bofinger_keys.all (fun k => containsKey payload k) = true →
      huld_keys.all (fun k => containsKey payload k) = false →
      _infer_model payload = some "bofinger") ∧
    (huld_keys.all (fun k => containsKey payload k) = false →
      bofinger_keys.all (fun k => containsKey payload k) = false →
      _infer_model payload = Option.none ∧
      ∃ err, model_validate payload = .error err) := by
  refine ⟨?_, ?_, ?_⟩
  · intro h
    simp [_infer_model, h]
  · intro hb hh
    simp [_infer_model, hh, hb]
  · intro hh hb
    have hinf : _infer_model payload = Option.none := by
      simp [_infer_model, hh, hb]
    refine ⟨hinf, ?_⟩
    have hmerge : _merge_panel_parameters payload = payload :=
      merge_id_of_not_dict payload hnowrap
    have hnomodel' : dictGet? payload "model" = Option.none :=
      (dictGet?_eq_none_iff payload "model").mpr hnomodel
    have hunwrap : dictGet? (_unwrap_or_infer_payload payload) "model"
        = Option.none := by
      unfold _unwrap_or_infer_payload
      simp only [hmerge, hnomodel, hinf, Bool.false_eq_true, if_false]
      by_cases hn : (!containsKey payload "name"
          || !pyTruthy (pyGet payload "name")) = true
      · rw [if_pos hn, dictGet?_dictSet_ne _ _ _ _ (by decide)]
        exact hnomodel'
      · rw [if_neg hn]
        exact hnomodel'
    have hparse : parseModelField (_unwrap_or_infer_payload payload)
        = .error "model: field required" := by
      unfold parseModelField
      rw [hunwrap]
    refine ⟨"model: field required", ?_⟩
    simp only [model_validate]
    rw [hparse]
    rfl

/-- The concrete full-huld payload (no `model` key) used to witness C3. -/
def c3Payload : Dict :=
  [("name", .str "X"), ("inverter_efficiency", .int 1),
   ("efficiency", .int 1), ("c_temp_amb", .int 1), ("c_temp_irrad", .int 1),
   ("r_tamb", .int 1), ("r_tmod", .int 1), ("r_irradiance", .int 1),
   ("k_1", .int 1), ("k_2", .int 1), ("k_3", .int 1), ("k_4", .int 1),
   ("k_5", .int 1), ("k_6", .int 1)]

/-- Witness for C3: the full huld field set without a `model` tag infers
huld. -/
theorem c3_model_inference_witness : _infer_model c3Payload = some "huld" :=
  (c3_model_inference c3Payload (by decide) (by decide)).1 (by decide)

/-! ## Claim C4 -/

theorem foldl_merge_get_some (p : Dict) (ks : List String) (m : Dict)
    (k : String) (x : PyValue) (hx : dictGet? m k = some x) :
    dictGet? (ks.foldl
      (fun merged key =>
        match dictGet? p key with
        | some v =>
          match v with
          | .none => merged
          | _ => dictSetdefault merged key v
        | Option.none => merged) m) k = some x := by
  induction ks generalizing m with
  | nil => exact hx
  | cons key t ih =>
    rw [List.foldl_cons]
    apply ih
    cases hv : dictGet? p key with
    | none => simpa [hv] using hx
    | some v =>
      cases v
      case none => simpa [hv] using hx
      all_goals
        simp only [hv]
        exact dictGet?_dictSetdefault_of_some _ _ _ _ _ hx

theorem foldl_merge_get_notmem (p : Dict) (ks : List String) (m : Dict)
    (k : String) (hk : k ∉ ks) :
    dictGet? (ks.foldl
      (fun merged key =>
        match dictGet? p key with
        | some v =>
          match v with
          | .none => merged
          | _ => dictSetdefault merged key v
        | Option.none => merged) m) k = dictGet? m k := by
  induction ks generalizing m with
  | nil => rfl
  | cons key t ih =>
    rw [List.foldl_cons]
    have hne : key ≠ k := fun h => hk (h ▸ List.mem_cons_self _ _)
    rw [ih _ (fun h => hk (List.mem_cons_of_mem _ h))]
    cases hv : dictGet? p key with
    | none => simp [hv]
    | some v =>
      cases v
      case none => simp [hv]
      all_goals
        simp only [hv]
        exact dictGet?_dictSetdefault_ne _ _ _ _ hne

theorem foldl_merge_get_split (p : Dict) (ks1 ks2 : List String) (m : Dict)
    (k : String) (hk1 : k ∉ ks1) (_hk2 : k ∉ ks2)
    (hm : dictGet? m k = Option.none)
    (v : PyValue) (hv : dictGet? p k = some v) (hvn : v ≠ .none) :
    dictGet? ((ks1 ++ k :: ks2).foldl
      (fun merged key =>
        match dictGet? p key with
        | some v =>
          match v with
          | .none => merged
          | _ => dictSetdefault merged key v
        | Option.none => merged) m) k = some v := by
  rw [List.foldl_append, List.foldl_cons]
  apply foldl_merge_get_some p ks2 _ k v
  have h1 : dictGet? (ks1.foldl
      (fun merged key =>
        match dictGet? p key with
        | some v =>
          match v with
          | .none => merged
          | _ => dictSetdefault merged key v
        | Option.none => merged) m) k = Option.none := by
    rw [foldl_merge_get_notmem p ks1 m k hk1]
    exact hm
  cases v with
  | none => exact absurd rfl hvn
  | bool b =>
    simp only [hv]
    exact dictGet?_dictSetdefault_self_absent _ _ _
      ((dictGet?_eq_none_iff _ _).mp h1)
  | int n =>
    simp only [hv]
    exact dictGet?_dictSetdefault_self_absent _ _ _
      ((dictGet?_eq_none_iff _ _).mp h1)
  | float q =>
    simp only [hv]
    exact dictGet?_dictSetdefault_self_absent _ _ _
      ((dictGet?_eq_none_iff _ _).mp h1)
  | str s =>
    simp only [hv]
    exact dictGet?_dictSetdefault_self_absent _ _ _
      ((dictGet?_eq_none_iff _ _).mp h1)
  | list xs =>
    simp only [hv]
    exact dictGet?_dictSetdefault_self_absent _ _ _
      ((dictGet?_eq_none_iff _ _).mp h1)
  | dict d =>
    simp only [hv]
    exact dictGet?_dictSetdefault_self_absent _ _ _
      ((dictGet?_eq_none_iff _ _).mp h1)

/-- The concrete payload refuting C4 as stated: `name` appears both as a
sibling field and inside the `panel_parameters` wrapper. -/
def c4Payload : Dict :=
  [("name", .str "SiblingName"),
   ("panel_parameters", .dict
     [("model", .str "huld"), ("name", .str "WrapperName"),
      ("inverter_efficiency", .int 1), ("efficiency", .int 1),
      ("c_temp_amb", .int 1), ("c_temp_irrad", .int 1), ("r_tamb", .int 1),
      ("r_tmod", .int 1), ("r_irradiance", .int 1), ("k_1", .int 1),
      ("k_2", .int 1), ("k_3", .int 1), ("k_4", .int 1), ("k_5", .int 1),
      ("k_6", .int 1)])]

/-- Counterexample to C4 as stated: with `name` present both as sibling
(`"SiblingName"`) and inside the wrapper (`"WrapperName"`), the validated
config carries the wrapper value — the sibling value does not win. -/
theorem c4_counterexample :
    solarConfigName (model_validate c4Payload) = some "WrapperName" ∧
    solarConfigName (model_validate c4Payload) ≠ some "SiblingName" := by
  constructor
  · decide
  · decide

/-- C4 amended: the unwrap step merges the wrapper with the sibling
name/manufacturer/source/model fields such that the wrapper value wins
when a key is present in both, and the sibling value is used only as a
fallback when the wrapper lacks the key (and the sibling is not None). -/
theorem c4_wrapper_precedence_amended (payload w : Dict)
    (hw : pyGet payload "panel_parameters" = .dict w) :
    (∀ k x, dictGet? w k = some x →
      dictGet? (_merge_panel_parameters payload) k = some x) ∧
    (∀ k, k ∈ (["name", "manufacturer", "source", "model"] : List String) →
      containsKey w k = false →
      ∀ v, dictGet? payload k = some v → v ≠ .none →
        dictGet? (_merge_panel_parameters payload) k = some v) := by
  have hmp : _merge_panel_parameters payload
      = (["name", "manufacturer", "source", "model"] : List String).foldl
          (fun merged key =>
            match dictGet? payload key with
            | some v =>
              match v with
              | .none => merged
              | _ => dictSetdefault merged key v
            | Option.none => merged) w := by
    unfold _merge_panel_parameters
    rw [hw]
  constructor
  · intro k x hx
    rw [hmp]
    exact foldl_merge_get_some payload _ w k x hx
  · intro k hk hcw v hv hvn
    have hw_none : dictGet? w k = Option.none := (dictGet?_eq_none_iff w k).mpr hcw
    rw [hmp]
    fin_cases hk
    · exact foldl_merge_get_split payload [] ["manufacturer", "source", "model"]
        w "name" (by decide) (by decide) hw_none v hv hvn
    · exact foldl_merge_get_split payload ["name"] ["source", "model"]
        w "manufacturer" (by decide) (by decide) hw_none v hv hvn
    · exact foldl_merge_get_split payload ["name", "manufacturer"] ["model"]
        w "source" (by decide) (by decide) hw_none v hv hvn
    · exact foldl_merge_get_split payload ["name", "manufacturer", "source"] []
        w "model" (by decide) (by decide) hw_none v hv hvn

/-- The concrete payload used to witness the amended C4. -/
def c4WitnessPayload : Dict :=
  [("name", .str "SiblingName"), ("source", .str "SiblingSource"),
   ("panel_parameters", .dict [("name", .str "WrapperName")])]

/-- Witness for the amended C4: the wrapper's `name` wins over the
sibling, and the sibling's `source` is used since the wrapper lacks it. -/
theorem c4_wrapper_precedence_amended_witness :
    dictGet? (_merge_panel_parameters c4WitnessPayload) "name"
      = some (.str "WrapperName") ∧
    dictGet? (_merge_panel_parameters c4WitnessPayload) "source"
      = some (.str "SiblingSource") := by
  constructor
  · exact (c4_wrapper_precedence_amended c4WitnessPayload
      [("name", .str "WrapperName")] rfl).1 "name" (.str "WrapperName") rfl
  · exact (c4_wrapper_precedence_amended c4WitnessPayload
      [("name", .str "WrapperName")] rfl).2 "source" (by decide) (by decide)
      (.str "SiblingSource") rfl (by simp)

/-! ## Claim C9 -/

theorem containsKey_eq_of_get_eq (d1 d2 : Dict) (k : String)
    (h : dictGet? d1 k = dictGet? d2 k) :
    containsKey d1 k = containsKey d2 k := by
  have e1 : (containsKey d1 k = false) ↔ (containsKey d2 k = false) := by
    rw [← dictGet?_eq_none_iff, ← dictGet?_eq_none_iff, h]
  cases b1 : containsKey d1 k <;> cases b2 : containsKey d2 k <;> simp_all

theorem name_step_get (u : Dict) :
    dictGet? (if (!containsKey u "name" || !pyTruthy (pyGet u "name")) = true
        then dictSet u "name" (.str "API_Custom_Solar") else u) "name" =
      if pyTruthy (pyGet u "name") = true then dictGet? u "name"
      else some (.str "API_Custom_Solar") := by
  by_cases hn : pyTruthy (pyGet u "name") = true
  · have hck : containsKey u "name" = true := by
      by_contra hc
      have h0 : dictGet? u "name" = Option.none :=
        (dictGet?_eq_none_iff _ _).mpr (by simpa using hc)
      unfold pyGet at hn
      rw [h0] at hn
      simp [pyTruthy] at hn
    rw [if_neg (by simp [hck, hn]), if_pos hn]
  · have hn' : pyTruthy (pyGet u "name") = false := by simpa using hn
    rw [if_pos (by simp [hn']), dictGet?_dictSet_self, if_neg hn]

theorem unwrap_name_get (d : Dict)
    (hnowrap : isDict (pyGet d "panel_parameters") = false) :
    dictGet? (_unwrap_or_infer_payload d) "name" =
      if pyTruthy (pyGet d "name") = true then dictGet? d "name"
      else some (.str "API_Custom_Solar") := by
  unfold _unwrap_or_infer_payload
  simp only [merge_id_of_not_dict d hnowrap]
  by_cases hm : containsKey d "model" = true
  · rw [if_pos hm]
    exact name_step_get d
  · rw [if_neg hm]
    cases hi : _infer_model d with
    | none =>
      simp only [hi]
      exact name_step_get d
    | some inferred =>
      simp only [hi]
      rw [name_step_get (dictSet d "model" (.str inferred))]
      have hpres : dictGet? (dictSet d "model" (.str inferred)) "name"
          = dictGet? d "name" := dictGet?_dictSet_ne _ _ _ _ (by decide)
      rw [show pyGet (dictSet d "model" (.str inferred)) "name" = pyGet d "name"
        from by unfold pyGet; rw [hpres], hpres]

theorem model_validate_ok_name (d : Dict) (c : SolarTechnologyConfig)
    (h : model_validate d = .ok c) :
    parseNameField (_unwrap_or_infer_payload d) = .ok c.name := by
  simp only [model_validate, except_bind_ok] at h
  obtain ⟨m, hm, nm, hnm, a1, h1, a2, h2, a3, h3, a4, h4, a5, h5, a6, h6, a7, h7,
    a8, h8, a9, h9, a10, h10, a11, h11, a12, h12, a13, h13, a14, h14, a15, h15,
    a16, h16, a17, h17, a18, h18, a19, h19, a20, h20, a21, h21, a22, h22,
    a23, h23, a24, h24, a25, h25, a26, h26, a27, h27, hfin⟩ := h
  have hcn : c.name = nm := by
    simp only [_validate_model_specific_fields] at hfin
    split at hfin <;> split at hfin <;>
      first
        | (injection hfin with hrec; rw [← hrec])
        | exact Except.noConfusion hfin
  rw [hcn]
  exact hnm

/-- The concrete payload refuting C9 as stated: an empty `name` field. -/
def c9Payload : Dict :=
  [("name", .str ""), ("model", .str "huld"), ("inverter_efficiency", .int 1),
   ("efficiency", .int 1), ("c_temp_amb", .int 1), ("c_temp_irrad", .int 1),
   ("r_tamb", .int 1), ("r_tmod", .int 1), ("r_irradiance", .int 1),
   ("k_1", .int 1), ("k_2", .int 1), ("k_3", .int 1), ("k_4", .int 1),
   ("k_5", .int 1), ("k_6", .int 1)]

/-- Counterexample to C9 as stated: with `name` present but empty and
`default_name = "CSi"`, validation succeeds with the hardcoded
`"API_Custom_Solar"`, not the caller-supplied default. -/
theorem c9_counterexample :
    solarConfigName (from_payload c9Payload "CSi") = some "API_Custom_Solar" ∧
    solarConfigName (from_payload c9Payload "CSi") ≠ some "CSi" := by
  constructor
  · decide
  · decide

/-- C9 amended: for a wrapper-free payload, an absent `name` is defaulted
to the caller-supplied `default_name` (when that default is non-empty),
but a present-and-empty `name` is replaced by the hardcoded
`"API_Custom_Solar"`, not by `default_name`. -/
theorem c9_default_name_amended (payload : Dict) (default_name : String)
    (hnowrap : isDict (pyGet payload "panel_parameters") = false) :
    (containsKey payload "name" = false → default_name ≠ "" →
      ∀ c, from_payload payload default_name = .ok c →
        c.name = default_name) ∧
    (dictGet? payload "name" = some (.str "") →
      ∀ c, from_payload payload default_name = .ok c →
        c.name = "API_Custom_Solar") := by
  constructor
  · intro hna hdn c hc
    have hsd : dictSetdefault payload "name" (.str default_name)
        = payload ++ [("name", .str default_name)] := by
      unfold dictSetdefault
      rw [if_neg (by simp [hna])]
    unfold from_payload at hc
    rw [hsd] at hc
    have hname := model_validate_ok_name _ c hc
    have hpp : isDict (pyGet (payload ++ [("name", .str default_name)])
        "panel_parameters") = false := by
      unfold pyGet
      rw [dictGet?_append_last]
      cases hd : dictGet? payload "panel_parameters" with
      | none =>
        rw [if_neg (by decide)]
        rfl
      | some x =>
        simpa [pyGet, hd] using hnowrap
    have hget : dictGet? (payload ++ [("name", .str default_name)]) "name"
        = some (.str default_name) := by
      rw [dictGet?_append_last, (dictGet?_eq_none_iff payload "name").mpr hna]
      simp
    have htr : pyTruthy (pyGet (payload ++ [("name", .str default_name)])
        "name") = true := by
      unfold pyGet
      rw [hget]
      simp [pyTruthy, hdn]
    have hv : dictGet? (_unwrap_or_infer_payload
        (payload ++ [("name", .str default_name)])) "name"
        = some (.str default_name) := by
      rw [unwrap_name_get _ hpp, if_pos htr, hget]
    unfold parseNameField at hname
    simp only [hv] at hname
    rw [if_neg hdn] at hname
    exact (Except.ok.inj hname).symm
  · intro hns c hc
    have hck : containsKey payload "name" = true := by
      by_contra h
      rw [(dictGet?_eq_none_iff payload "name").mpr (by simpa using h)] at hns
      exact Option.noConfusion hns
    have hsd : dictSetdefault payload "name" (.str default_name) = payload := by
      unfold dictSetdefault
      rw [if_pos hck]
    unfold from_payload at hc
    rw [hsd] at hc
    have hname := model_validate_ok_name _ c hc
    have htr : pyTruthy (pyGet payload "name") = false := by
      unfold pyGet
      rw [hns]
      simp [pyTruthy]
    have hv : dictGet? (_unwrap_or_infer_payload payload) "name"
        = some (.str "API_Custom_Solar") := by
      rw [unwrap_name_get _ hnowrap, if_neg (by simp [htr])]
    unfold parseNameField at hname
    simp only [hv] at hname
    rw [if_neg (show ¬(("API_Custom_Solar" : String) = "") from by decide)] at hname
    exact (Except.ok.inj hname).symm

/-- The concrete payload (no `name` key) used to witness the amended C9. -/
def c9WitnessPayload : Dict :=
  [("model", .str "huld"), ("inverter_efficiency", .int 1),
   ("efficiency", .int 1), ("c_temp_amb", .int 1), ("c_temp_irrad", .int 1),
   ("r_tamb", .int 1), ("r_tmod", .int 1), ("r_irradiance", .int 1),
   ("k_1", .int 1), ("k_2", .int 1), ("k_3", .int 1), ("k_4", .int 1),
   ("k_5", .int 1), ("k_6", .int 1)]

/-- Witness for the amended C9: an absent `name` takes the caller-supplied
default. -/
theorem c9_default_name_amended_witness :
    solarConfigName (from_payload c9WitnessPayload "CSi") = some "CSi" := by
  have h := (c9_default_name_amended c9WitnessPayload "CSi" (by decide)).1
    (by decide) (by decide)
  obtain ⟨c, hc⟩ : ∃ c, from_payload c9WitnessPayload "CSi" = .ok c := ⟨_, rfl⟩
  rw [show solarConfigName (from_payload c9WitnessPayload "CSi")
    = some c.name from by rw [hc]; rfl, h c hc]
